import Mathlib

/-!
Shallow embedding of `src/app/src/main.rs` (ft4ed-seq-locator): the rack
addressing engine (`T4edRack`), the de-duplicated error display
(`ErrorDisplay`), the shared input-dispatch pipeline (`handle_input_change`)
and the four event adapters that feed it.  DOM manipulation is represented by
the state those calls leave behind (the per-cell "selected" class flags, the
pagination text, the error container's child nodes) plus an explicit effect
list for the purely visual calls (`set_max_height`, `scroll_to_element`).
-/

/-- Size of the `usize` machine-integer domain (64-bit target). -/
def USIZE_SIZE : Nat := 2 ^ 64

/-- `usize::MAX`. -/
def USIZE_MAX : Nat := USIZE_SIZE - 1

/-- `usize` subtraction `a - b` with two's-complement wraparound, the
release-profile semantics of Rust integer overflow (requires `b ≤ USIZE_SIZE`;
in particular `usizeSub 0 1 = USIZE_MAX`). -/
def usizeSub (a b : Nat) : Nat := (a + (USIZE_SIZE - b)) % USIZE_SIZE

/-- `enum RackError { OutOfRange(usize, usize), NotANumber }` -/
inductive RackError
  | OutOfRange (min max : Nat)
  | NotANumber
deriving DecidableEq, Repr

/-- The discriminant of a `RackError` value (`std::mem::discriminant`):
which variant it is, with payloads forgotten. -/
inductive RackVariant
  | outOfRange
  | notANumber
deriving DecidableEq, Repr

def RackError.variant : RackError → RackVariant
  | .OutOfRange _ _ => .outOfRange
  | .NotANumber => .notANumber

/-- The `eq_variant!` macro: `std::mem::discriminant(e1) == std::mem::discriminant(e2)`,
i.e. equality of variants ignoring payloads. -/
def eq_variant (a b : RackError) : Bool := decide (a.variant = b.variant)

/-- Numeric value of one ASCII digit character, `none` for anything else
(`u32::from(c) - u32::from('0')` guarded by an is-digit check, as in
`from_str_radix`'s per-byte digit conversion for radix 10). -/
def digitVal? (c : Char) : Option Nat :=
  if c.isDigit then some (c.toNat - 48) else none

/-- Accumulating loop of `from_str_radix`: consume the digit characters,
failing on the first non-digit. -/
def digitsAcc? : Nat → List Char → Option Nat
  | acc, [] => some acc
  | acc, c :: cs =>
    match digitVal? c with
    | some d => digitsAcc? (acc * 10 + d) cs
    | none => none

/-- Value of a non-empty all-digit character list; `none` if empty or if any
character is not an ASCII digit. -/
def digitsToNat? : List Char → Option Nat
  | [] => none
  | cs => digitsAcc? 0 cs

/-- `parse_usize` / `usize::from_str_radix(value, 10)`.  A leading `+` is
accepted; a leading `-` is not a digit and fails (usize is unsigned); the
empty string and a bare sign fail.  `from_str_radix` rejects overflow with
per-digit checked arithmetic; because the accumulator is monotone in each
step, that is equivalent to the final bound check against `usize::MAX`
performed here. -/
def parse_usize (value : String) : Option Nat :=
  let digits :=
    match value.data with
    | c :: rest => if c = '+' then rest else c :: rest
    | [] => []
  match digitsToNat? digits with
  | some n => if n ≤ USIZE_MAX then some n else none
  | none => none

/-- Numeric value of a digit-character list read in base 10 (used to state
what a parse of an all-digit string would produce were there no overflow
check). -/
def digitsVal (cs : List Char) : Nat :=
  cs.foldl (fun a c => a * 10 + (c.toNat - 48)) 0

/-- State of a `T4edRack` widget.  `locations` records, in `Vec` order
(creation order: the cell at position `k` carries attribute
`data-seq = k + 1`, since at creation `sequence = locations.len() + 1 + i`),
whether each cell's class list currently contains
`scan-loc__cell--selected`.  `rack_indicator` is the text content of the
pagination element (its initial markup text is modelled as `""`).  The DOM
`Element` handles themselves carry no further engine-relevant state. -/
structure T4edRack where
  locations : List Bool
  dirty_locations : List Nat
  rack_indicator : String
deriving DecidableEq, Repr

/-- `T4edRack::new`: builds 5 columns of 16 cells each (80 locations), none
selected, no dirty locations. -/
def T4edRack.new : T4edRack :=
  { locations := List.replicate (5 * 16) false
    dirty_locations := []
    rack_indicator := "" }

/-- `set_rack_number`: `format!("{}", num)` into the pagination element. -/
def T4edRack.set_rack_number (r : T4edRack) (num : Nat) : T4edRack :=
  { r with rack_indicator := Nat.repr num }

def T4edRack.clear_rack_number (r : T4edRack) : T4edRack :=
  { r with rack_indicator := "" }

/-- `deactivate_all`: remove the selected class from every dirty location,
then clear the dirty list.  The Rust indexing `self.locations[*el]` panics
when an index is out of bounds; `T4edRack.deactivate_all?` models that
faithfully, and this total version (where an out-of-bounds `List.set` is a
no-op) is used where the panic is proved unreachable. -/
def T4edRack.deactivate_all (r : T4edRack) : T4edRack :=
  { r with
    locations := r.dirty_locations.foldl (fun locs el => locs.set el false) r.locations
    dirty_locations := [] }

/-- `deactivate_all` with the panic of `self.locations[*el]` made explicit:
`none` exactly when some dirty index is out of bounds. -/
def T4edRack.deactivate_all? (r : T4edRack) : Option T4edRack :=
  (r.dirty_locations.foldlM
      (fun locs el => if el < locs.length then some (locs.set el false) else none)
      r.locations).map
    (fun locs => { r with locations := locs, dirty_locations := [] })

/-- `highlight_location`: reject sequences above 160; fold rack-2 sequences
into rack-local ones by subtracting 80; clear the previous highlight; then
select cell `seq - 1` if in bounds (`usize` subtraction: for `seq = 0` the
`seq - 1` wraps around to `USIZE_MAX`, which fails the bounds check). -/
def T4edRack.highlight_location (r : T4edRack) (seq : Nat) : T4edRack × Bool :=
  if 160 < seq then (r, false)
  else
    let seq1 := if 80 < seq then usizeSub seq 80 else seq
    let r1 := r.deactivate_all
    let seq2 := usizeSub seq1 1
    if seq2 < r1.locations.length then
      ({ r1 with
         locations := r1.locations.set seq2 true
         dirty_locations := r1.dirty_locations ++ [seq2] }, true)
    else (r1, false)

/-- `highlight_location` with the indexing panic inside `deactivate_all`
made explicit. -/
def T4edRack.highlight_location? (r : T4edRack) (seq : Nat) : Option (T4edRack × Bool) :=
  if 160 < seq then some (r, false)
  else
    let seq1 := if 80 < seq then usizeSub seq 80 else seq
    r.deactivate_all?.map (fun r1 =>
      let seq2 := usizeSub seq1 1
      if seq2 < r1.locations.length then
        ({ r1 with
           locations := r1.locations.set seq2 true
           dirty_locations := r1.dirty_locations ++ [seq2] }, true)
      else (r1, false))

/-- State of the `ErrorDisplay`.  Each active error is paired with the id of
the `div` created for it; `containerChildren` lists (in insertion order) the
ids of the error `div`s currently attached to the container element;
`nextId` is a source of fresh ids for newly created elements. -/
structure ErrorDisplay where
  errors : List (RackError × Nat)
  containerChildren : List Nat
  nextId : Nat
deriving DecidableEq, Repr

def ErrorDisplay.new : ErrorDisplay :=
  { errors := [], containerChildren := [], nextId := 0 }

/-- `add_error`: if no active error shares the variant (the `eq_variant!`
check), create a `div`, append it to the container, and push the pair;
otherwise do nothing. -/
def ErrorDisplay.add_error (d : ErrorDisplay) (error : RackError) : ErrorDisplay :=
  if d.errors.any (fun e => eq_variant e.1 error) then d
  else
    { errors := d.errors ++ [(error, d.nextId)]
      containerChildren := d.containerChildren ++ [d.nextId]
      nextId := d.nextId + 1 }

/-- `self.errors.iter().position(|e| eq_variant!(..))` followed by
`self.errors.remove(i)`: remove the first entry whose variant matches,
returning the remaining list and the removed entry's element id (if any). -/
def removeFirstVariant : List (RackError × Nat) → RackError → List (RackError × Nat) × Option Nat
  | [], _ => ([], none)
  | e :: rest, error =>
    if eq_variant e.1 error then (rest, some e.2)
    else
      let r := removeFirstVariant rest error
      (e :: r.1, r.2)

/-- `clear_error`: remove the first active error of the same variant (if
any) and `el.remove()` its `div` from the container. -/
def ErrorDisplay.clear_error (d : ErrorDisplay) (error : RackError) : ErrorDisplay :=
  match removeFirstVariant d.errors error with
  | (rest, some el) =>
    { d with errors := rest, containerChildren := d.containerChildren.erase el }
  | (_, none) => d

/-- `clear_all`: `self.errors.clear()`.  Note that unlike `clear_error` it
does not call `el.remove()` on the entries' elements, so the container's
child `div`s are left in place. -/
def ErrorDisplay.clear_all (d : ErrorDisplay) : ErrorDisplay :=
  { d with errors := [] }

/-- Whether an error of the given discriminant is currently active. -/
def ErrorDisplay.activeVariant (d : ErrorDisplay) (v : RackVariant) : Bool :=
  d.errors.any (fun e => decide (e.1.variant = v))

/-- The branch of `handle_input_change` taken for a given input, as the
spec's `Outcome` classification: which of the four dispatch cases fired. -/
inductive Outcome
  | Valid (rack_number : Nat)
  | OutOfRange (min max : Nat)
  | Invalid (error : RackError)
  | Empty
deriving DecidableEq, Repr

/-- Purely visual DOM calls made by `handle_input_change`
(`set_max_height`, `scroll_to_element`); they touch no engine state. -/
inductive DomEffect
  | setMaxHeight
  | scrollToRack
deriving DecidableEq, Repr

structure HandleResult where
  rack : T4edRack
  errors : ErrorDisplay
  outcome : Outcome
  fx : List DomEffect
deriving DecidableEq, Repr

/-- `handle_input_change(rack, errors, value, scroll)`, the shared dispatch
pipeline.  On a parsed value: visual effects, clear `NotANumber`, attempt the
highlight; on failure add `OutOfRange(1,160)`, blank the rack number and
deactivate; on success clear `OutOfRange` (the payload `(0,0)` in the call is
irrelevant to the variant-keyed lookup) and set the rack number from
`seq > 80`.  On a parse error: blank the rack number, clear `OutOfRange`,
deactivate, and add `NotANumber` unless the input was empty, in which case
clear it. -/
def handle_input_change (rack : T4edRack) (errors : ErrorDisplay) (value : String)
    (scroll : Bool) : HandleResult :=
  match parse_usize value with
  | some seq =>
    let fx := DomEffect.setMaxHeight :: (if scroll then [DomEffect.scrollToRack] else [])
    let errors1 := errors.clear_error RackError.NotANumber
    let hr := rack.highlight_location seq
    if hr.2 = false then
      { rack := (hr.1.clear_rack_number).deactivate_all
        errors := errors1.add_error (RackError.OutOfRange 1 160)
        outcome := Outcome.OutOfRange 1 160
        fx := fx }
    else
      { rack := if 80 < seq then hr.1.set_rack_number 2 else hr.1.set_rack_number 1
        errors := errors1.clear_error (RackError.OutOfRange 0 0)
        outcome := Outcome.Valid (if 80 < seq then 2 else 1)
        fx := fx }
  | none =>
    let rack1 := (rack.clear_rack_number).deactivate_all
    let errors1 := errors.clear_error (RackError.OutOfRange 0 0)
    if value = "" then
      { rack := rack1
        errors := errors1.clear_error RackError.NotANumber
        outcome := Outcome.Empty
        fx := [] }
    else
      { rack := rack1
        errors := errors1.add_error RackError.NotANumber
        outcome := Outcome.Invalid RackError.NotANumber
        fx := [] }

/-- `handle_input_change` with the indexing panics inside the two
`deactivate_all` call sites (one inside `highlight_location`, one direct)
made explicit: `none` exactly when some Rust statement would panic. -/
def handle_input_change? (rack : T4edRack) (errors : ErrorDisplay) (value : String)
    (scroll : Bool) : Option HandleResult :=
  match parse_usize value with
  | some seq =>
    let fx := DomEffect.setMaxHeight :: (if scroll then [DomEffect.scrollToRack] else [])
    let errors1 := errors.clear_error RackError.NotANumber
    (rack.highlight_location? seq).bind (fun hr =>
      if hr.2 = false then
        ((hr.1.clear_rack_number).deactivate_all?).map (fun rack1 =>
          { rack := rack1
            errors := errors1.add_error (RackError.OutOfRange 1 160)
            outcome := Outcome.OutOfRange 1 160
            fx := fx })
      else
        some { rack := if 80 < seq then hr.1.set_rack_number 2 else hr.1.set_rack_number 1
               errors := errors1.clear_error (RackError.OutOfRange 0 0)
               outcome := Outcome.Valid (if 80 < seq then 2 else 1)
               fx := fx })
  | none =>
    ((rack.clear_rack_number).deactivate_all?).map (fun rack1 =>
      let errors1 := errors.clear_error (RackError.OutOfRange 0 0)
      if value = "" then
        { rack := rack1
          errors := errors1.clear_error RackError.NotANumber
          outcome := Outcome.Empty
          fx := [] }
      else
        { rack := rack1
          errors := errors1.add_error RackError.NotANumber
          outcome := Outcome.Invalid RackError.NotANumber
          fx := [] })

/-- Full widget state as the adapters see it: the rack, the error display,
and the text currently shown in the location-picker input box. -/
structure AppState where
  rack : T4edRack
  errors : ErrorDisplay
  inputBox : String
deriving DecidableEq, Repr

/-- Run the shared pipeline inside the widget state (the visual effect list
is consumed by the rendering layer and not retained). -/
def AppState.dispatch (st : AppState) (value : String) (scroll : Bool) : AppState :=
  let res := handle_input_change st.rack st.errors value scroll
  { st with rack := res.rack, errors := res.errors }

/-- Body of the `cell_events::bind_touch` listener once a `data-seq` value
has been extracted from the touched cell: write it into the input box, then
run the shared pipeline with `scroll = false`. -/
def adapter_touch (st : AppState) (raw : String) : AppState :=
  ({ st with inputBox := raw }).dispatch raw false

/-- Body of the `cell_events::bind_mouse_over` listener once the hovered
cell's `data-seq` value has been read. -/
def adapter_mouse_over (st : AppState) (raw : String) : AppState :=
  ({ st with inputBox := raw }).dispatch raw false

/-- Body of the `cell_events::bind_mouse_down` listener once the clicked
cell's `data-seq` value has been read. -/
def adapter_mouse_down (st : AppState) (raw : String) : AppState :=
  ({ st with inputBox := raw }).dispatch raw false

/-- Body of the `InputEvent` listener in `run`: read the input box's current
value and run the shared pipeline with `scroll = true`. -/
def adapter_input (st : AppState) : AppState :=
  st.dispatch st.inputBox true

/-- Fold a sequence of `(value, scroll)` events through the dispatch
pipeline. -/
def runInputs (st : T4edRack × ErrorDisplay) (inputs : List (String × Bool)) :
    T4edRack × ErrorDisplay :=
  inputs.foldl
    (fun st vs =>
      let res := handle_input_change st.1 st.2 vs.1 vs.2
      (res.rack, res.errors))
    st

/-- The widget state freshly built by `run` / `T4edRack::new`. -/
def initState : T4edRack × ErrorDisplay := (T4edRack.new, ErrorDisplay.new)

/-- Every cell currently carrying the selected class is recorded in
`dirty_locations` (so `deactivate_all` really deactivates everything). -/
def selTracked (r : T4edRack) : Prop :=
  ∀ i, r.locations.getD i false = true → i ∈ r.dirty_locations

/-- Every dirty index is in bounds (so `self.locations[*el]` cannot
panic). -/
def dirtyBounded (r : T4edRack) : Prop :=
  ∀ el ∈ r.dirty_locations, el < r.locations.length

/-- No two active errors share a variant (the de-duplication invariant the
guard in `add_error` maintains). -/
def errsInv (d : ErrorDisplay) : Prop :=
  (d.errors.map (fun e => e.1.variant)).Nodup

/-! ### Arithmetic and list helper lemmas -/

theorem usizeSub_of_le (a b : Nat) (hb : b ≤ a) (ha : a < USIZE_SIZE) :
    usizeSub a b = a - b := by
  have h1 : a + (USIZE_SIZE - b) = (a - b) + USIZE_SIZE := by
    have : (USIZE_SIZE : Nat) = 2 ^ 64 := rfl
    omega
  rw [usizeSub, h1, Nat.add_mod_right, Nat.mod_eq_of_lt (by omega)]

theorem usizeSub_zero_one : usizeSub 0 1 = USIZE_MAX := by
  rw [usizeSub, Nat.zero_add, Nat.mod_eq_of_lt (by norm_num [USIZE_SIZE])]
  rfl

theorem getD_set_lt {α : Type} {l : List α} {i : Nat} (h : i < l.length) (a d : α) :
    (l.set i a).getD i d = a := by
  rw [List.getD_eq_getElem?_getD, List.getElem?_set_self h]
  rfl

theorem getD_set_ne {α : Type} {l : List α} {i j : Nat} (h : i ≠ j) (a d : α) :
    (l.set i a).getD j d = l.getD j d := by
  rw [List.getD_eq_getElem?_getD, List.getElem?_set_ne h, ← List.getD_eq_getElem?_getD]

theorem count_true_eq_zero {l : List Bool} (h : ∀ i, l.getD i false = false) :
    l.count true = 0 := by
  rw [List.count_eq_zero]
  intro hmem
  obtain ⟨n, hn, hval⟩ := List.mem_iff_getElem.mp hmem
  have : l.getD n false = true := by
    rw [List.getD_eq_getElem?_getD, List.getElem?_eq_getElem hn, hval]
    rfl
  rw [h n] at this
  exact Bool.false_ne_true this

theorem count_true_set (l : List Bool) (i : Nat) :
    (l.set i true).count true ≤ l.count true + 1 := by
  induction l generalizing i with
  | nil => simp
  | cons b bs ih =>
    cases i with
    | zero => simp [List.count_cons]
    | succ j =>
      have := ih j
      simp only [List.set, List.count_cons, this]
      split <;> omega

/-! ### `deactivate_all` lemmas -/

theorem foldl_set_length (dirty : List Nat) (locs : List Bool) :
    (dirty.foldl (fun l e => l.set e false) locs).length = locs.length := by
  induction dirty generalizing locs with
  | nil => rfl
  | cons d rest ih => simp only [List.foldl_cons, ih, List.length_set]

theorem getD_foldl_set_false (dirty : List Nat) (locs : List Bool) (i : Nat)
    (h : (dirty.foldl (fun l e => l.set e false) locs).getD i false = true) :
    locs.getD i false = true ∧ i ∉ dirty := by
  induction dirty generalizing locs with
  | nil => exact ⟨h, List.not_mem_nil i⟩
  | cons d rest ih =>
    rw [List.foldl_cons] at h
    obtain ⟨hset, hrest⟩ := ih (locs.set d false) h
    have hne : i ≠ d := by
      intro heq
      subst heq
      by_cases hd : i < locs.length
      · rw [getD_set_lt hd] at hset
        exact Bool.false_ne_true hset
      · rw [List.set_eq_of_length_le (by omega)] at hset
        rw [List.getD_eq_default _ _ (by omega)] at hset
        exact Bool.false_ne_true hset
    rw [getD_set_ne (fun heq => hne heq.symm)] at hset
    exact ⟨hset, by simp [List.mem_cons, hne, hrest]⟩

theorem deactivate_all_locations_len (r : T4edRack) :
    r.deactivate_all.locations.length = r.locations.length :=
  foldl_set_length r.dirty_locations r.locations

theorem deactivate_all_getD (r : T4edRack) (h : selTracked r) (i : Nat) :
    r.deactivate_all.locations.getD i false = false := by
  cases hval : r.deactivate_all.locations.getD i false with
  | false => rfl
  | true =>
    obtain ⟨horig, hnot⟩ := getD_foldl_set_false r.dirty_locations r.locations i hval
    exact absurd (h i horig) hnot

theorem foldlM_set_eq (dirty : List Nat) (locs : List Bool)
    (h : ∀ el ∈ dirty, el < locs.length) :
    dirty.foldlM (fun l e => if e < l.length then some (l.set e false) else none) locs
      = some (dirty.foldl (fun l e => l.set e false) locs) := by
  induction dirty generalizing locs with
  | nil => rfl
  | cons d rest ih =>
    have hd : d < locs.length := h d (List.mem_cons_self d rest)
    rw [List.foldlM_cons, List.foldl_cons]
    simp only [hd, if_true]
    exact ih (locs.set d false) (fun el hel => by
      rw [List.length_set]
      exact h el (List.mem_cons_of_mem d hel))

theorem deactivate_all?_eq (r : T4edRack) (h : dirtyBounded r) :
    r.deactivate_all? = some r.deactivate_all := by
  rw [T4edRack.deactivate_all?, foldlM_set_eq r.dirty_locations r.locations h,
    Option.map_some']
  rfl

theorem dirtyBounded_clear_rack (r : T4edRack) :
    dirtyBounded r.clear_rack_number ↔ dirtyBounded r := Iff.rfl

theorem highlight_location?_eq (r : T4edRack) (h : dirtyBounded r) (seq : Nat) :
    r.highlight_location? seq = some (r.highlight_location seq) := by
  rw [T4edRack.highlight_location?, T4edRack.highlight_location]
  split
  · rfl
  · rw [deactivate_all?_eq r h, Option.map_some']

theorem dirtyBounded_if_set (r1 : T4edRack) (hd : r1.dirty_locations = []) (s2 : Nat) :
    dirtyBounded
      (if s2 < r1.locations.length then
        ({ r1 with
           locations := r1.locations.set s2 true
           dirty_locations := r1.dirty_locations ++ [s2] }, true)
      else (r1, false)).1 := by
  split
  · intro el hel
    simp only [hd, List.nil_append, List.mem_singleton] at hel
    subst hel
    rw [List.length_set]
    assumption
  · intro el hel
    rw [hd] at hel
    exact absurd hel (List.not_mem_nil el)

theorem highlight_dirtyBounded (r : T4edRack) (seq : Nat) (h : dirtyBounded r) :
    dirtyBounded (r.highlight_location seq).1 := by
  rw [T4edRack.highlight_location]
  split
  · exact h
  · exact dirtyBounded_if_set r.deactivate_all rfl _

theorem handle_input_change?_eq (r : T4edRack) (e : ErrorDisplay) (v : String) (s : Bool)
    (h : dirtyBounded r) :
    handle_input_change? r e v s = some (handle_input_change r e v s) := by
  rw [handle_input_change?, handle_input_change]
  cases hp : parse_usize v with
  | none =>
    have h2 : dirtyBounded r.clear_rack_number := h
    dsimp only
    rw [deactivate_all?_eq _ h2, Option.map_some']
  | some seq =>
    have hb : dirtyBounded ((r.highlight_location seq).1.clear_rack_number) :=
      highlight_dirtyBounded r seq h
    dsimp only
    rw [highlight_location?_eq r h seq, Option.some_bind]
    split
    · rw [deactivate_all?_eq _ hb, Option.map_some']
    · rfl

/-! ### `ErrorDisplay` lemmas -/

theorem any_variant_eq_mem (l : List (RackError × Nat)) (v : RackVariant) :
    l.any (fun p => decide (p.1.variant = v)) = true ↔ v ∈ l.map (fun p => p.1.variant) := by
  rw [List.any_eq_true]
  simp only [decide_eq_true_eq, List.mem_map]

theorem any_variant_false_of_not_mem (l : List (RackError × Nat)) (v : RackVariant)
    (h : v ∉ l.map (fun p => p.1.variant)) :
    l.any (fun p => decide (p.1.variant = v)) = false := by
  cases hb : l.any (fun p => decide (p.1.variant = v)) with
  | false => rfl
  | true => exact absurd ((any_variant_eq_mem l v).mp hb) h

theorem add_guard_eq (d : ErrorDisplay) (e : RackError) :
    d.errors.any (fun p => eq_variant p.1 e) = d.activeVariant e.variant := rfl

theorem activeVariant_add (d : ErrorDisplay) (e : RackError) (v : RackVariant) :
    (d.add_error e).activeVariant v
      = (d.activeVariant v || decide (e.variant = v)) := by
  rw [ErrorDisplay.add_error]
  split
  · rename_i hg
    rw [add_guard_eq] at hg
    by_cases hv : e.variant = v
    · subst hv
      rw [hg]
      simp
    · simp [hv]
  · simp [ErrorDisplay.activeVariant, List.any_append]

theorem add_error_of_active (d : ErrorDisplay) (e : RackError)
    (h : d.activeVariant e.variant = true) : d.add_error e = d := by
  rw [ErrorDisplay.add_error, add_guard_eq, h]
  rfl

theorem removeFirstVariant_sublist (l : List (RackError × Nat)) (e : RackError) :
    (removeFirstVariant l e).1.Sublist l := by
  induction l with
  | nil => exact List.Sublist.refl []
  | cons p rest ih =>
    rw [removeFirstVariant]
    split
    · exact List.sublist_cons_self p rest
    · exact List.Sublist.cons₂ p ih

theorem removeFirstVariant_none (l : List (RackError × Nat)) (e : RackError)
    (h : (removeFirstVariant l e).2 = none) : (removeFirstVariant l e).1 = l := by
  induction l with
  | nil => rfl
  | cons p rest ih =>
    rw [removeFirstVariant] at h ⊢
    by_cases hc : eq_variant p.1 e = true
    · rw [if_pos hc] at h
      simp at h
    · rw [if_neg hc] at h ⊢
      simp only [List.cons.injEq, true_and]
      exact ih h

theorem removeFirstVariant_not_found (l : List (RackError × Nat)) (e : RackError)
    (h : l.any (fun p => eq_variant p.1 e) = false) :
    removeFirstVariant l e = (l, none) := by
  induction l with
  | nil => rfl
  | cons p rest ih =>
    rw [List.any_cons, Bool.or_eq_false_iff] at h
    rw [removeFirstVariant, if_neg (by rw [h.1]; exact Bool.false_ne_true), ih h.2]

theorem removeFirstVariant_any (l : List (RackError × Nat)) (e : RackError)
    (v : RackVariant) (hnd : (l.map (fun p => p.1.variant)).Nodup) :
    (removeFirstVariant l e).1.any (fun p => decide (p.1.variant = v))
      = (l.any (fun p => decide (p.1.variant = v)) && !(decide (e.variant = v))) := by
  induction l with
  | nil => simp [removeFirstVariant]
  | cons p rest ih =>
    rw [List.map_cons, List.nodup_cons] at hnd
    obtain ⟨hpn, hnd'⟩ := hnd
    rw [removeFirstVariant]
    split
    · rename_i hpe
      have hpe' : p.1.variant = e.variant := of_decide_eq_true hpe
      by_cases hv : e.variant = v
      · subst hv
        rw [any_variant_false_of_not_mem rest e.variant (hpe' ▸ hpn)]
        simp [List.any_cons, hpe']
      · simp [List.any_cons, hpe', hv]
    · rename_i hpe
      have hpe' : ¬p.1.variant = e.variant := by
        intro hcon
        exact hpe (decide_eq_true hcon)
      by_cases hv : e.variant = v
      · subst hv
        simp [List.any_cons, ih hnd', hpe']
      · simp only [List.any_cons, ih hnd']
        by_cases hpv : p.1.variant = v <;> simp [hpv, hv]

theorem clear_error_errors (d : ErrorDisplay) (e : RackError) :
    (d.clear_error e).errors = (removeFirstVariant d.errors e).1 := by
  rw [ErrorDisplay.clear_error]
  rcases hrm : removeFirstVariant d.errors e with ⟨rest, el?⟩
  cases el? with
  | none =>
    have hn := removeFirstVariant_none d.errors e (by rw [hrm])
    rw [hrm] at hn
    simp only [hrm]
    exact hn.symm
  | some el => simp only [hrm]

theorem activeVariant_clear (d : ErrorDisplay) (e : RackError) (v : RackVariant)
    (h : errsInv d) :
    (d.clear_error e).activeVariant v
      = (d.activeVariant v && !(decide (e.variant = v))) := by
  rw [ErrorDisplay.activeVariant, clear_error_errors, removeFirstVariant_any d.errors e v h]
  rfl

theorem clear_error_of_inactive (d : ErrorDisplay) (e : RackError)
    (h : d.activeVariant e.variant = false) : d.clear_error e = d := by
  rw [ErrorDisplay.clear_error, removeFirstVariant_not_found d.errors e h]

theorem errsInv_add (d : ErrorDisplay) (e : RackError) (h : errsInv d) :
    errsInv (d.add_error e) := by
  rw [ErrorDisplay.add_error]
  split
  · exact h
  · rename_i hg
    rw [add_guard_eq] at hg
    rw [errsInv, List.map_append, List.map_singleton]
    refine List.Nodup.append h (List.nodup_singleton _) ?_
    rw [List.disjoint_singleton]
    intro hmem
    exact hg ((any_variant_eq_mem d.errors e.variant).mpr hmem)

theorem errsInv_clear (d : ErrorDisplay) (e : RackError) (h : errsInv d) :
    errsInv (d.clear_error e) := by
  rw [errsInv, clear_error_errors]
  exact ((removeFirstVariant_sublist d.errors e).map _).nodup h

theorem countP_variant_one (l : List (RackError × Nat)) (v : RackVariant)
    (hnd : (l.map (fun p => p.1.variant)).Nodup)
    (ha : l.any (fun p => decide (p.1.variant = v)) = true) :
    l.countP (fun p => decide (p.1.variant = v)) = 1 := by
  induction l with
  | nil => simp at ha
  | cons p rest ih =>
    rw [List.map_cons, List.nodup_cons] at hnd
    obtain ⟨hpn, hnd'⟩ := hnd
    rw [List.countP_cons]
    by_cases hp : p.1.variant = v
    · subst hp
      rw [List.countP_eq_zero.mpr]
      · simp
      · intro q hq hqv
        exact hpn (List.mem_map.mpr ⟨q, hq, of_decide_eq_true hqv⟩)
    · rw [List.any_cons] at ha
      have ha' : rest.any (fun q => decide (q.1.variant = v)) = true := by
        rcases Bool.or_eq_true_iff.mp ha with h1 | h1
        · exact absurd (of_decide_eq_true h1) hp
        · exact h1
      simp [hp, ih hnd' ha']

/-! ### Dispatch step lemmas -/

theorem allFalse_pack (r1 : T4edRack) (hall : ∀ i, r1.locations.getD i false = false) :
    selTracked r1 ∧ r1.locations.count true ≤ 1 := by
  constructor
  · intro i hi
    rw [hall i] at hi
    exact absurd hi Bool.false_ne_true
  · rw [count_true_eq_zero hall]
    exact Nat.zero_le 1

theorem selTracked_if_set (r1 : T4edRack) (hall : ∀ i, r1.locations.getD i false = false)
    (s2 : Nat) :
    selTracked
      (if s2 < r1.locations.length then
        ({ r1 with
           locations := r1.locations.set s2 true
           dirty_locations := r1.dirty_locations ++ [s2] }, true)
      else (r1, false)).1 := by
  split
  · intro i hi
    by_cases his : i = s2
    · subst his
      simp [List.mem_append]
    · rw [getD_set_ne (fun hh => his hh.symm)] at hi
      rw [hall i] at hi
      exact absurd hi Bool.false_ne_true
  · intro i hi
    rw [hall i] at hi
    exact absurd hi Bool.false_ne_true

theorem count_if_set (r1 : T4edRack) (hall : ∀ i, r1.locations.getD i false = false)
    (s2 : Nat) :
    (if s2 < r1.locations.length then
      ({ r1 with
         locations := r1.locations.set s2 true
         dirty_locations := r1.dirty_locations ++ [s2] }, true)
    else (r1, false)).1.locations.count true ≤ 1 := by
  split
  · have h1 := count_true_set r1.locations s2
    rw [count_true_eq_zero hall] at h1
    exact h1
  · rw [count_true_eq_zero hall]
    exact Nat.zero_le 1

theorem highlight_post (r : T4edRack) (seq : Nat) (h : selTracked r) :
    selTracked (r.highlight_location seq).1 ∧
    ((r.highlight_location seq).2 = true →
      (r.highlight_location seq).1.locations.count true ≤ 1) := by
  rw [T4edRack.highlight_location]
  split
  · exact ⟨h, fun hc => absurd hc Bool.false_ne_true⟩
  · have hall : ∀ i, (r.deactivate_all).locations.getD i false = false :=
      deactivate_all_getD r h
    exact ⟨selTracked_if_set r.deactivate_all hall _,
      fun _ => count_if_set r.deactivate_all hall _⟩

theorem handle_rack_inv (r : T4edRack) (e : ErrorDisplay) (v : String) (s : Bool)
    (h : selTracked r) :
    selTracked (handle_input_change r e v s).rack ∧
    (handle_input_change r e v s).rack.locations.count true ≤ 1 := by
  rw [handle_input_change]
  cases hp : parse_usize v with
  | none =>
    dsimp only
    have hall : ∀ i, ((r.clear_rack_number).deactivate_all).locations.getD i false = false :=
      deactivate_all_getD r.clear_rack_number h
    split
    · exact allFalse_pack _ hall
    · exact allFalse_pack _ hall
  | some seq =>
    dsimp only
    obtain ⟨hsel, hcnt⟩ := highlight_post r seq h
    split
    · have hall : ∀ i,
          (((r.highlight_location seq).1.clear_rack_number).deactivate_all).locations.getD
            i false = false :=
        deactivate_all_getD _ hsel
      exact allFalse_pack _ hall
    · rename_i hf
      have h2 : (r.highlight_location seq).2 = true := by
        cases hb : (r.highlight_location seq).2 with
        | false => exact absurd hb hf
        | true => rfl
      split
      · exact ⟨hsel, hcnt h2⟩
      · exact ⟨hsel, hcnt h2⟩

theorem handle_errs_inv (r : T4edRack) (e : ErrorDisplay) (v : String) (s : Bool)
    (h : errsInv e) :
    errsInv (handle_input_change r e v s).errors ∧
    (((handle_input_change r e v s).errors.activeVariant RackVariant.notANumber)
      && ((handle_input_change r e v s).errors.activeVariant RackVariant.outOfRange))
        = false := by
  have hc1 := fun v' => activeVariant_clear e RackError.NotANumber v' h
  have hc0 := fun v' => activeVariant_clear e (RackError.OutOfRange 0 0) v' h
  have hi1 : errsInv (e.clear_error RackError.NotANumber) := errsInv_clear _ _ h
  have hi0 : errsInv (e.clear_error (RackError.OutOfRange 0 0)) := errsInv_clear _ _ h
  have hc10 := fun v' =>
    activeVariant_clear (e.clear_error RackError.NotANumber) (RackError.OutOfRange 0 0) v' hi1
  have hc01 := fun v' =>
    activeVariant_clear (e.clear_error (RackError.OutOfRange 0 0)) RackError.NotANumber v' hi0
  rw [handle_input_change]
  cases hp : parse_usize v with
  | none =>
    dsimp only
    split
    · exact ⟨errsInv_clear _ _ hi0, by
        simp only [hc01, hc0, activeVariant_add, RackError.variant]
        simp⟩
    · exact ⟨errsInv_add _ _ hi0, by
        simp only [activeVariant_add, hc0, RackError.variant]
        simp [RackError.variant]⟩
  | some seq =>
    dsimp only
    split
    · exact ⟨errsInv_add _ _ hi1, by
        simp only [activeVariant_add, hc1, RackError.variant]
        simp [RackError.variant]⟩
    · exact ⟨errsInv_clear _ _ hi1, by
        simp only [hc10, hc1, RackError.variant]
        simp⟩

theorem runInputs_inv (inputs : List (String × Bool)) (st : T4edRack × ErrorDisplay)
    (hsel : selTracked st.1) (hcnt : st.1.locations.count true ≤ 1)
    (herr : errsInv st.2)
    (hmx : ((st.2.activeVariant RackVariant.notANumber)
        && (st.2.activeVariant RackVariant.outOfRange)) = false) :
    selTracked (runInputs st inputs).1 ∧
    (runInputs st inputs).1.locations.count true ≤ 1 ∧
    errsInv (runInputs st inputs).2 ∧
    (((runInputs st inputs).2.activeVariant RackVariant.notANumber)
        && ((runInputs st inputs).2.activeVariant RackVariant.outOfRange)) = false := by
  induction inputs generalizing st with
  | nil => exact ⟨hsel, hcnt, herr, hmx⟩
  | cons p rest ih =>
    have hstep := handle_rack_inv st.1 st.2 p.1 p.2 hsel
    have estep := handle_errs_inv st.1 st.2 p.1 p.2 herr
    exact ih ((handle_input_change st.1 st.2 p.1 p.2).rack,
      (handle_input_change st.1 st.2 p.1 p.2).errors) hstep.1 hstep.2 estep.1 estep.2

/-! ### Evaluation of valid sequences -/

theorem deactivate_all_dirty (r : T4edRack) : r.deactivate_all.dirty_locations = [] := rfl

set_option maxRecDepth 100000 in
theorem parse_repr_lt : ∀ s < 161, parse_usize (Nat.repr s) = some s := by decide

theorem lt_usize_size (s : Nat) (h : s ≤ 160) : s < USIZE_SIZE := by
  have h2 : (160 : Nat) < USIZE_SIZE := by norm_num [USIZE_SIZE]
  omega

theorem highlight_in_range (r : T4edRack) (s : Nat) (h1 : 1 ≤ s) (h2 : s ≤ 160)
    (hlen : r.locations.length = 80) :
    r.highlight_location s =
      ({ r.deactivate_all with
         locations := (r.deactivate_all).locations.set ((s - 1) % 80) true
         dirty_locations := [(s - 1) % 80] }, true) := by
  have h64 : s < USIZE_SIZE := lt_usize_size s h2
  have hblen : (r.deactivate_all).locations.length = 80 := by
    rw [deactivate_all_locations_len, hlen]
  rw [T4edRack.highlight_location, if_neg (by omega)]
  by_cases h80 : 80 < s
  · rw [if_pos h80]
    dsimp only
    rw [usizeSub_of_le s 80 (by omega) h64,
      usizeSub_of_le (s - 80) 1 (by omega) (lt_of_le_of_lt (Nat.sub_le s 80) h64),
      if_pos (by rw [hblen]; omega)]
    have hidx : s - 80 - 1 = (s - 1) % 80 := by omega
    rw [hidx, deactivate_all_dirty, List.nil_append]
  · rw [if_neg h80]
    dsimp only
    rw [usizeSub_of_le s 1 (by omega) h64,
      if_pos (by rw [hblen]; omega)]
    have hidx : s - 1 = (s - 1) % 80 := by omega
    conv_lhs => rw [hidx]
    rw [deactivate_all_dirty, List.nil_append]

/-- C1: for every integer `s` in `1..=160` given as its decimal string,
evaluation takes the `Valid` branch with rack number 1 when `s ≤ 80` and 2
otherwise (shown both in the outcome and in the pagination text), and the
highlighted 0-based in-rack index — the one cell recorded dirty and carrying
the selected class — is `(s - 1) % 80`. -/
theorem evaluate_valid_in_range (s : Nat) (h1 : 1 ≤ s) (h2 : s ≤ 160)
    (r : T4edRack) (e : ErrorDisplay) (scroll : Bool)
    (hlen : r.locations.length = 80) :
    (handle_input_change r e (Nat.repr s) scroll).outcome
        = Outcome.Valid (if s ≤ 80 then 1 else 2) ∧
    (handle_input_change r e (Nat.repr s) scroll).rack.dirty_locations = [(s - 1) % 80] ∧
    (handle_input_change r e (Nat.repr s) scroll).rack.locations.getD ((s - 1) % 80) false
        = true ∧
    (handle_input_change r e (Nat.repr s) scroll).rack.rack_indicator
        = Nat.repr (if s ≤ 80 then 1 else 2) := by
  have hp : parse_usize (Nat.repr s) = some s := parse_repr_lt s (by omega)
  have hh := highlight_in_range r s h1 h2 hlen
  have hidx : (s - 1) % 80 < (r.deactivate_all).locations.length := by
    rw [deactivate_all_locations_len, hlen]
    omega
  rw [handle_input_change, hp]
  dsimp only
  rw [hh]
  dsimp only
  rw [if_neg (by simp)]
  by_cases h80 : 80 < s
  · have hle : ¬s ≤ 80 := by omega
    refine ⟨?_, ?_, ?_, ?_⟩
    · simp only [if_pos h80, if_neg hle]
    · simp only [if_pos h80]
      rfl
    · simp only [if_pos h80]
      exact getD_set_lt hidx true false
    · simp only [if_pos h80, if_neg hle]
      rfl
  · have hle : s ≤ 80 := by omega
    refine ⟨?_, ?_, ?_, ?_⟩
    · simp only [if_neg h80, if_pos hle]
    · simp only [if_neg h80]
      rfl
    · simp only [if_neg h80]
      exact getD_set_lt hidx true false
    · simp only [if_neg h80, if_pos hle]
      rfl

/-- Witness for C1 at the rack boundary `"81"` (rack 2, index 0). -/
theorem evaluate_valid_in_range_witness :
    1 ≤ 81 ∧ 81 ≤ 160 ∧ T4edRack.new.locations.length = 80 ∧
    ((handle_input_change T4edRack.new ErrorDisplay.new (Nat.repr 81) true).outcome
        = Outcome.Valid (if 81 ≤ 80 then 1 else 2) ∧
     (handle_input_change T4edRack.new ErrorDisplay.new (Nat.repr 81) true).rack.dirty_locations
        = [(81 - 1) % 80] ∧
     (handle_input_change T4edRack.new ErrorDisplay.new
        (Nat.repr 81) true).rack.locations.getD ((81 - 1) % 80) false = true ∧
     (handle_input_change T4edRack.new ErrorDisplay.new (Nat.repr 81) true).rack.rack_indicator
        = Nat.repr (if 81 ≤ 80 then 1 else 2)) :=
  ⟨by decide, by decide, by decide,
   evaluate_valid_in_range 81 (by decide) (by decide) T4edRack.new ErrorDisplay.new true
     (by decide)⟩

/-! ### Totality / panic freedom -/

theorem handle_dirtyBounded (r : T4edRack) (e : ErrorDisplay) (v : String) (s : Bool)
    (h : dirtyBounded r) : dirtyBounded (handle_input_change r e v s).rack := by
  rw [handle_input_change]
  cases hp : parse_usize v with
  | none =>
    dsimp only
    split <;>
      (intro el hel
       rw [deactivate_all_dirty] at hel
       exact absurd hel (List.not_mem_nil el))
  | some seq =>
    dsimp only
    split
    · intro el hel
      rw [deactivate_all_dirty] at hel
      exact absurd hel (List.not_mem_nil el)
    · have hb := highlight_dirtyBounded r seq h
      split
      · exact hb
      · exact hb

/-- C2: evaluation is total and never panics.  `handle_input_change?` makes
every potentially panicking Rust statement (the `self.locations[*el]`
indexing inside `deactivate_all`) explicit as `none`; from any state whose
dirty indices are in bounds it returns `some` of the total model's result on
every input string — all error conditions are ordinary `Outcome` values — and
the in-bounds invariant is itself preserved. -/
theorem evaluate_total_no_panic (r : T4edRack) (e : ErrorDisplay) (value : String)
    (scroll : Bool) (h : dirtyBounded r) :
    handle_input_change? r e value scroll = some (handle_input_change r e value scroll) ∧
    dirtyBounded (handle_input_change r e value scroll).rack :=
  ⟨handle_input_change?_eq r e value scroll h, handle_dirtyBounded r e value scroll h⟩

/-- Witness for C2 on the input `"0"` (the parsed-zero edge where
`seq - 1` wraps around) from the freshly built widget. -/
theorem evaluate_total_no_panic_witness :
    dirtyBounded T4edRack.new ∧
    (handle_input_change? T4edRack.new ErrorDisplay.new "0" true
        = some (handle_input_change T4edRack.new ErrorDisplay.new "0" true) ∧
     dirtyBounded (handle_input_change T4edRack.new ErrorDisplay.new "0" true).rack) :=
  ⟨fun el hel => absurd hel (List.not_mem_nil el),
   evaluate_total_no_panic T4edRack.new ErrorDisplay.new "0" true
     (fun el hel => absurd hel (List.not_mem_nil el))⟩

/-! ### Out-of-range evaluation -/

theorem getD_replicate_false (n i : Nat) :
    (List.replicate n false).getD i false = false := by
  rw [List.getD_eq_getElem?_getD]
  rcases Nat.lt_or_ge i (List.replicate n false).length with hlt | hge
  · rw [List.getElem?_eq_getElem hlt, List.getElem_replicate]
    rfl
  · rw [List.getElem?_eq_none hge]
    rfl

theorem selTracked_new : selTracked T4edRack.new := by
  intro i hi
  have h0 : T4edRack.new.locations.getD i false = false := getD_replicate_false (5 * 16) i
  rw [h0] at hi
  exact absurd hi Bool.false_ne_true

theorem errsInv_new : errsInv ErrorDisplay.new := List.nodup_nil

theorem highlight_out_of_range (r : T4edRack) (s : Nat) (hs : s = 0 ∨ 160 < s)
    (hlen : r.locations.length = 80) :
    (r.highlight_location s).2 = false := by
  rcases hs with hs | hs
  · subst hs
    rw [T4edRack.highlight_location, if_neg (by omega)]
    dsimp only
    rw [if_neg (show ¬(80 < 0) by omega), usizeSub_zero_one,
      if_neg (show ¬(USIZE_MAX < (r.deactivate_all).locations.length) by
        rw [deactivate_all_locations_len, hlen]
        norm_num [USIZE_MAX, USIZE_SIZE])]
  · rw [T4edRack.highlight_location, if_pos hs]

/-- C3 counterexample: `"-1"`, an integer `s ≤ 0` supplied as text, does not
yield `OutOfRange(1,160)`: it fails the `usize` parse and takes the
`Invalid(NotANumber)` branch, raising `NotANumber`. -/
theorem evaluate_out_of_range_cex :
    (handle_input_change T4edRack.new ErrorDisplay.new "-1" true).outcome
        = Outcome.Invalid RackError.NotANumber ∧
    (handle_input_change T4edRack.new ErrorDisplay.new "-1" true).outcome
        ≠ Outcome.OutOfRange 1 160 ∧
    (handle_input_change T4edRack.new ErrorDisplay.new "-1" true).errors.activeVariant
        RackVariant.outOfRange = false ∧
    (handle_input_change T4edRack.new ErrorDisplay.new "-1" true).errors.activeVariant
        RackVariant.notANumber = true := by decide

/-- C3 (amended): for every string that parses as a `usize` integer `s`
(hence `0 ≤ s ≤ usize::MAX`) with `s = 0` or `s > 160`, evaluation takes the
`OutOfRange(1,160)` branch: the `OutOfRange` error becomes active, the
highlight is cleared (no dirty location, no selected cell), and the
rack-number display is blanked.  Negative integers supplied as text do not
parse and yield `Invalid(NotANumber)` instead (see the counterexample). -/
theorem evaluate_out_of_range_amended (value : String) (s : Nat) (r : T4edRack)
    (e : ErrorDisplay) (scroll : Bool)
    (hp : parse_usize value = some s) (hs : s = 0 ∨ 160 < s)
    (hsel : selTracked r) (hlen : r.locations.length = 80) :
    (handle_input_change r e value scroll).outcome = Outcome.OutOfRange 1 160 ∧
    (handle_input_change r e value scroll).errors.activeVariant RackVariant.outOfRange
        = true ∧
    (handle_input_change r e value scroll).rack.dirty_locations = [] ∧
    (∀ i, (handle_input_change r e value scroll).rack.locations.getD i false = false) ∧
    (handle_input_change r e value scroll).rack.rack_indicator = "" := by
  have hfail : (r.highlight_location s).2 = false := highlight_out_of_range r s hs hlen
  have hsel1 : selTracked (r.highlight_location s).1 := (highlight_post r s hsel).1
  rw [handle_input_change, hp]
  dsimp only
  rw [if_pos hfail]
  refine ⟨rfl, ?_, deactivate_all_dirty _, fun i => deactivate_all_getD _ hsel1 i, rfl⟩
  rw [activeVariant_add]
  simp [RackError.variant]

/-- Witness for the amended C3 on the input `"161"` from the fresh widget. -/
theorem evaluate_out_of_range_amended_witness :
    parse_usize "161" = some 161 ∧ (161 = 0 ∨ 160 < 161) ∧
    T4edRack.new.locations.length = 80 ∧
    ((handle_input_change T4edRack.new ErrorDisplay.new "161" true).outcome
        = Outcome.OutOfRange 1 160 ∧
     (handle_input_change T4edRack.new ErrorDisplay.new "161" true).errors.activeVariant
        RackVariant.outOfRange = true ∧
     (handle_input_change T4edRack.new ErrorDisplay.new "161" true).rack.dirty_locations
        = [] ∧
     (∀ i, (handle_input_change T4edRack.new ErrorDisplay.new
        "161" true).rack.locations.getD i false = false) ∧
     (handle_input_change T4edRack.new ErrorDisplay.new "161" true).rack.rack_indicator
        = "") :=
  ⟨by decide, by decide, by decide,
   evaluate_out_of_range_amended "161" 161 T4edRack.new ErrorDisplay.new true
     (by decide) (by decide) selTracked_new (by decide)⟩

/-! ### Invalid and empty inputs -/

/-- C4: every non-empty string failing the base-10 `usize` parse (such as
`"abc"`, `"-5"`, `"3.5"`) takes the `Invalid(NotANumber)` branch and
activates `NotANumber`; the empty string takes the distinct `Empty` branch,
on which `NotANumber` is cleared rather than raised; both clear the
highlight. -/
theorem evaluate_invalid_and_empty (value : String) (r : T4edRack) (e : ErrorDisplay)
    (scroll : Bool) (hp : parse_usize value = none) (hsel : selTracked r)
    (herr : errsInv e) :
    (value ≠ "" →
      (handle_input_change r e value scroll).outcome
          = Outcome.Invalid RackError.NotANumber ∧
      (handle_input_change r e value scroll).errors.activeVariant RackVariant.notANumber
          = true) ∧
    (value = "" →
      (handle_input_change r e value scroll).outcome = Outcome.Empty ∧
      (handle_input_change r e value scroll).errors.activeVariant RackVariant.notANumber
          = false) ∧
    Outcome.Empty ≠ Outcome.Invalid RackError.NotANumber ∧
    (handle_input_change r e value scroll).rack.dirty_locations = [] ∧
    (∀ i, (handle_input_change r e value scroll).rack.locations.getD i false = false) := by
  have hi0 : errsInv (e.clear_error (RackError.OutOfRange 0 0)) := errsInv_clear _ _ herr
  rw [handle_input_change, hp]
  dsimp only
  by_cases hv : value = ""
  · rw [if_pos hv]
    refine ⟨fun hne => absurd hv hne, fun _ => ⟨rfl, ?_⟩, by decide,
      deactivate_all_dirty _, fun i => deactivate_all_getD _ hsel i⟩
    rw [activeVariant_clear _ _ _ hi0, activeVariant_clear _ _ _ herr]
    simp [RackError.variant]
  · rw [if_neg hv]
    refine ⟨fun _ => ⟨rfl, ?_⟩, fun heq => absurd heq hv, by decide,
      deactivate_all_dirty _, fun i => deactivate_all_getD _ hsel i⟩
    rw [activeVariant_add]
    simp [RackError.variant]

/-- Witness for C4 on the input `"abc"` from the fresh widget. -/
theorem evaluate_invalid_and_empty_witness :
    parse_usize "abc" = none ∧
    ((handle_input_change T4edRack.new ErrorDisplay.new "abc" true).outcome
        = Outcome.Invalid RackError.NotANumber ∧
     (handle_input_change T4edRack.new ErrorDisplay.new "abc" true).errors.activeVariant
        RackVariant.notANumber = true) :=
  ⟨by decide,
   (evaluate_invalid_and_empty "abc" T4edRack.new ErrorDisplay.new true (by decide)
     selTracked_new errsInv_new).1 (by decide)⟩

/-! ### Invariants over event sequences -/

/-- C5: highlighting is exclusive.  After any sequence of dispatches from the
fresh widget, at most one cell carries the selected class (each
`highlight_location` first runs `deactivate_all`); concretely, evaluating
`"5"` then `"10"` leaves exactly the cell at index 9 selected and recorded
dirty — no stale highlight for `"5"` (index 4) remains. -/
theorem highlight_exclusive :
    (∀ inputs : List (String × Bool),
      (runInputs initState inputs).1.locations.count true ≤ 1) ∧
    (runInputs initState [("5", true), ("10", true)]).1.locations
        = (List.replicate 80 false).set 9 true ∧
    (runInputs initState [("5", true), ("10", true)]).1.dirty_locations = [9] := by
  refine ⟨fun inputs => ?_, by decide, by decide⟩
  exact (runInputs_inv inputs initState selTracked_new (by decide) errsInv_new
    (by decide)).2.1

/-- C6: after any sequence of dispatches starting from the empty error
state, the `NotANumber` and `OutOfRange` error kinds are never active
simultaneously (each branch of the dispatch clears the other kind). -/
theorem errors_mutually_exclusive (inputs : List (String × Bool)) :
    (((runInputs initState inputs).2.activeVariant RackVariant.notANumber)
      && ((runInputs initState inputs).2.activeVariant RackVariant.outOfRange))
        = false :=
  (runInputs_inv inputs initState selTracked_new (by decide) errsInv_new
    (by decide)).2.2.2

/-! ### Variant-keyed error tracking -/

theorem countP_variant_zero (l : List (RackError × Nat)) (v : RackVariant)
    (ha : l.any (fun p => decide (p.1.variant = v)) = false) :
    l.countP (fun p => decide (p.1.variant = v)) = 0 := by
  rw [List.countP_eq_zero]
  intro a hal hpa
  rw [List.any_eq_true.mpr ⟨a, hal, hpa⟩] at ha
  exact absurd ha (by decide)

/-- C7: tracker operations are keyed by variant only: adding a kind already
active (even with different numeric payloads) is a no-op and exactly one
entry of that kind remains, clearing a kind deactivates it whatever payloads
either side carries, and clearing an inactive kind is a no-op. -/
theorem error_ops_variant_keyed (d : ErrorDisplay) (e f : RackError)
    (hinv : errsInv d) (hv : e.variant = f.variant) :
    (d.activeVariant e.variant = true → d.add_error f = d) ∧
    (d.add_error f).errors.countP (fun p => decide (p.1.variant = e.variant)) = 1 ∧
    (d.clear_error f).activeVariant e.variant = false ∧
    (d.activeVariant e.variant = false → d.clear_error f = d) := by
  refine ⟨?_, ?_, ?_, ?_⟩
  · intro ha
    exact add_error_of_active d f (hv ▸ ha)
  · by_cases ha : d.activeVariant f.variant = true
    · rw [add_error_of_active d f ha]
      exact countP_variant_one d.errors e.variant hinv (hv ▸ ha)
    · have ha' : d.activeVariant f.variant = false := Bool.eq_false_iff.mpr ha
      rw [ErrorDisplay.add_error, if_neg (by rw [add_guard_eq, ha']; exact Bool.false_ne_true)]
      dsimp only
      rw [List.countP_append, countP_variant_zero d.errors e.variant (by rw [← hv] at ha'; exact ha')]
      simp [hv]
  · rw [activeVariant_clear d f e.variant hinv]
    simp [hv]
  · intro ha
    exact clear_error_of_inactive d f (hv ▸ ha)

/-- Witness for C7: with `OutOfRange(1,160)` active, re-adding the same kind
with different payload `OutOfRange(9,9)` is a no-op leaving one entry. -/
theorem error_ops_variant_keyed_witness :
    errsInv (ErrorDisplay.new.add_error (RackError.OutOfRange 1 160)) ∧
    (RackError.OutOfRange 1 160).variant = (RackError.OutOfRange 9 9).variant ∧
    ((ErrorDisplay.new.add_error (RackError.OutOfRange 1 160)).activeVariant
        (RackError.OutOfRange 1 160).variant = true →
      (ErrorDisplay.new.add_error (RackError.OutOfRange 1 160)).add_error
        (RackError.OutOfRange 9 9)
        = ErrorDisplay.new.add_error (RackError.OutOfRange 1 160)) ∧
    ((ErrorDisplay.new.add_error (RackError.OutOfRange 1 160)).add_error
        (RackError.OutOfRange 9 9)).errors.countP
      (fun p => decide (p.1.variant = (RackError.OutOfRange 1 160).variant)) = 1 :=
  ⟨by unfold errsInv; decide, by decide,
   (error_ops_variant_keyed (ErrorDisplay.new.add_error (RackError.OutOfRange 1 160))
     (RackError.OutOfRange 1 160) (RackError.OutOfRange 9 9)
     (by unfold errsInv; decide) (by decide)).1,
   (error_ops_variant_keyed (ErrorDisplay.new.add_error (RackError.OutOfRange 1 160))
     (RackError.OutOfRange 1 160) (RackError.OutOfRange 9 9)
     (by unfold errsInv; decide) (by decide)).2.1⟩

/-! ### clear_all -/

/-- C8 counterexample: after adding `NotANumber` (display handle 0 appended
to the container), `clear_all` empties the tracker's error list but the
handle is still attached to the container — no release notification was
issued for the removed entry (contrast `clear_error`, which releases it). -/
theorem clear_all_cex :
    ((ErrorDisplay.new.add_error RackError.NotANumber).clear_all).errors = [] ∧
    ((ErrorDisplay.new.add_error RackError.NotANumber).clear_all).containerChildren
        = [0] ∧
    ((ErrorDisplay.new.add_error RackError.NotANumber).clear_error
        RackError.NotANumber).containerChildren = [] := by decide

/-- C8 (amended): `clear_all` removes every active error from the tracker's
list but notifies the adapter of nothing: the container's child display
handles (and the id source) are left untouched, so the removed entries'
handles are never released. -/
theorem clear_all_amended (d : ErrorDisplay) :
    (d.clear_all).errors = [] ∧
    (d.clear_all).containerChildren = d.containerChildren ∧
    (d.clear_all).nextId = d.nextId :=
  ⟨rfl, rfl, rfl⟩

/-! ### Uniform dispatch across adapters -/

theorem handle_scroll_indep (r : T4edRack) (e : ErrorDisplay) (v : String)
    (s1 s2 : Bool) :
    (handle_input_change r e v s1).rack = (handle_input_change r e v s2).rack ∧
    (handle_input_change r e v s1).errors = (handle_input_change r e v s2).errors := by
  rw [handle_input_change, handle_input_change]
  cases parse_usize v with
  | none =>
    dsimp only
    split <;> exact ⟨rfl, rfl⟩
  | some seq =>
    dsimp only
    split <;> exact ⟨rfl, rfl⟩

/-- C9: all four trigger sources (touch drag, mouse hover, mouse click,
typed text) feed the same dispatch pipeline: for every raw value and widget
state, the three pointer adapters produce literally the same state, and the
typed-text adapter (whose input box already holds the raw value) produces
the same engine and error-tracker state — the only per-source difference is
the purely visual scroll flag, which touches neither. -/
theorem dispatch_uniform_across_adapters (st : AppState) (raw : String) :
    adapter_touch st raw = adapter_mouse_over st raw ∧
    adapter_touch st raw = adapter_mouse_down st raw ∧
    (adapter_touch st raw).rack = (adapter_input { st with inputBox := raw }).rack ∧
    (adapter_touch st raw).errors
        = (adapter_input { st with inputBox := raw }).errors := by
  refine ⟨rfl, rfl, ?_, ?_⟩
  · exact (handle_scroll_indep st.rack st.errors raw false true).1
  · exact (handle_scroll_indep st.rack st.errors raw false true).2

/-! ### Overflowing digit strings -/

theorem digitsAcc?_all_digits (cs : List Char) (acc : Nat)
    (hdig : ∀ c ∈ cs, c.isDigit = true) :
    digitsAcc? acc cs = some (cs.foldl (fun a c => a * 10 + (c.toNat - 48)) acc) := by
  induction cs generalizing acc with
  | nil => rfl
  | cons c rest ih =>
    have hc : c.isDigit = true := hdig c (List.mem_cons_self c rest)
    simp only [digitsAcc?, digitVal?, hc, if_true, List.foldl_cons]
    exact ih _ (fun x hx => hdig x (List.mem_cons_of_mem c hx))

/-- C10: a decimal digit string whose numeric value exceeds `usize::MAX`
(such as `"18446744073709551616"`) fails the parse, so evaluation takes the
`Invalid(NotANumber)` branch — `NotANumber` is raised and `OutOfRange` is
not — even though the value is an integer greater than 160. -/
theorem overflow_yields_not_a_number (value : String) (hne : value.data ≠ [])
    (hdig : ∀ c ∈ value.data, c.isDigit = true)
    (hover : USIZE_MAX < digitsVal value.data)
    (r : T4edRack) (e : ErrorDisplay) (scroll : Bool) (herr : errsInv e) :
    parse_usize value = none ∧
    (handle_input_change r e value scroll).outcome
        = Outcome.Invalid RackError.NotANumber ∧
    (handle_input_change r e value scroll).errors.activeVariant RackVariant.notANumber
        = true ∧
    (handle_input_change r e value scroll).errors.activeVariant RackVariant.outOfRange
        = false := by
  have hp : parse_usize value = none := by
    rw [parse_usize]
    cases hd : value.data with
    | nil => exact absurd hd hne
    | cons c rest =>
      rw [hd] at hdig hover
      have hc : c.isDigit = true := hdig c (List.mem_cons_self c rest)
      have hcp : ¬(c = '+') := by
        intro hcon
        rw [hcon] at hc
        exact absurd hc (by decide)
      dsimp only
      rw [if_neg hcp]
      have hacc := digitsAcc?_all_digits (c :: rest) 0 hdig
      rw [show digitsToNat? (c :: rest) = digitsAcc? 0 (c :: rest) from rfl, hacc]
      dsimp only
      exact if_neg (Nat.not_le.mpr hover)
  have hvne : ¬(value = "") := by
    intro hcon
    rw [hcon] at hne
    exact hne rfl
  rw [handle_input_change, hp]
  dsimp only
  rw [if_neg hvne]
  refine ⟨rfl, rfl, ?_, ?_⟩
  · rw [activeVariant_add]
    simp [RackError.variant]
  · rw [activeVariant_add, activeVariant_clear _ _ _ herr]
    simp [RackError.variant]

/-- Witness for C10 on `"18446744073709551616"` (that is, 2^64) from the
fresh widget. -/
theorem overflow_yields_not_a_number_witness :
    ("18446744073709551616" : String).data ≠ [] ∧
    (∀ c ∈ ("18446744073709551616" : String).data, c.isDigit = true) ∧
    USIZE_MAX < digitsVal ("18446744073709551616" : String).data ∧
    (parse_usize "18446744073709551616" = none ∧
     (handle_input_change T4edRack.new ErrorDisplay.new
        "18446744073709551616" true).outcome = Outcome.Invalid RackError.NotANumber ∧
     (handle_input_change T4edRack.new ErrorDisplay.new
        "18446744073709551616" true).errors.activeVariant RackVariant.notANumber = true ∧
     (handle_input_change T4edRack.new ErrorDisplay.new
        "18446744073709551616" true).errors.activeVariant RackVariant.outOfRange
        = false) :=
  ⟨by decide, by decide, by decide,
   overflow_yields_not_a_number "18446744073709551616" (by decide) (by decide) (by decide)
     T4edRack.new ErrorDisplay.new true errsInv_new⟩
